import Mathlib

/-!
Verification development for the tokstat repository (account/credential
persistence layer and interactive dashboard state machine).

The definitions below are a shallow embedding of the Rust source:
  * `src/storage/mod.rs` — `SecureStorage` and its operations.  The two
    persisted documents (account index, quota history) and the OS keyring
    are modelled as plain lists inside a `StorageState`; document loads
    read that state, and the effectful operations whose failures the
    source propagates (keyring store, keyring entry creation for deletes,
    index write, history write, history read) are made fallible through
    an `Effects` oracle so that failure paths of the source can be
    exercised.
    `chrono::Utc::now()` is modelled as an explicit integer timestamp
    argument; `f64` cost values are modelled as rationals (their only use
    in the verified code is equality comparison and division).
  * `src/ui/dashboard.rs` — the `App` state, `Mode` enumeration,
    `refresh_quotas` and the per-key-event body of `run_app` (`step`).
    Terminal I/O and rendering carry no model state.  The login
    collaborators (`src/auth/copilot.rs`, `src/auth/openrouter.rs`) are
    embedded by their storage effects: network/user interaction is an
    oracle, and on success they run `store_credentials` followed by
    `save_account` exactly as the source does.
  * `src/main.rs` — the arithmetic of `format_requests_with_bar`.
-/

namespace Tokstat

/-- `Account` record from `src/storage/mod.rs` (timestamps as unix seconds). -/
structure Account where
  name : String
  provider : String
  email : Option String
  created_at : Int
  last_updated : Int
deriving DecidableEq, Inhabited

/-- `QuotaSnapshot` from `src/storage/mod.rs`; `cost : Option<f64>` is
modelled as an optional rational. -/
structure QuotaSnapshot where
  timestamp : Int
  tokens_used : Option Nat
  requests_made : Option Nat
  cost : Option ℚ
deriving DecidableEq, Inhabited

/-- `QuotaSnapshot::has_changed_from`: the snapshot differs from `other`
in any of tokens_used / requests_made / cost. -/
def QuotaSnapshot.has_changed_from (self other : QuotaSnapshot) : Bool :=
  self.tokens_used != other.tokens_used
    || self.requests_made != other.requests_made
    || self.cost != other.cost

/-- `QuotaHistory` from `src/storage/mod.rs`. -/
structure QuotaHistory where
  account_name : String
  snapshots : List QuotaSnapshot
deriving DecidableEq, Inhabited

/-- `MAX_HISTORY_SIZE` from `src/storage/mod.rs`. -/
def MAX_HISTORY_SIZE : Nat := 100

/-- `TokenUsage` from `src/providers/mod.rs`. -/
structure TokenUsage where
  tokens_used : Option Nat
  requests_made : Option Nat
  cost : Option ℚ
deriving DecidableEq, Inhabited

/-- `TokenLimits` from `src/providers/mod.rs`. -/
structure TokenLimits where
  max_tokens : Option Nat
  max_requests : Option Nat
  max_cost : Option ℚ
deriving DecidableEq, Inhabited

/-- `QuotaInfo` from `src/providers/mod.rs`. -/
structure QuotaInfo where
  provider : String
  account_name : String
  usage : TokenUsage
  limits : Option TokenLimits
  reset_date : Option Int
  last_updated : Int
deriving DecidableEq, Inhabited

/-- The persistent state behind `SecureStorage`: the `accounts.json`
index, the OS keyring (association list, newest entry first), and the
`quota_history.json` document. -/
structure StorageState where
  accounts : List Account
  vault : List (String × String)
  history : List QuotaHistory
deriving DecidableEq, Inhabited

/-- Oracle describing which effectful operations succeed: keyring
`set_password` per target name, the accounts-index file write, the
quota-history file write, keyring `Entry::new` inside
`delete_credentials` per name (its inner `delete_password` error is
ignored by the source), and the quota-history file read (the source
propagates `load_history()?` failures in `remove_account` and
`rename_account`). -/
structure Effects where
  storeCredOk : String → Bool
  saveIndexOk : Bool
  saveHistoryOk : Bool
  deleteCredOk : String → Bool
  loadHistoryOk : Bool

instance {ε α : Type} [DecidableEq ε] [DecidableEq α] :
    DecidableEq (Except ε α) := fun x y =>
  match x, y with
  | .ok a, .ok b =>
    if h : a = b then .isTrue (congrArg Except.ok h)
    else .isFalse (fun hh => h (Except.ok.inj hh))
  | .error a, .error b =>
    if h : a = b then .isTrue (congrArg Except.error h)
    else .isFalse (fun hh => h (Except.error.inj hh))
  | .ok _, .error _ => .isFalse (fun hh => Except.noConfusion hh)
  | .error _, .ok _ => .isFalse (fun hh => Except.noConfusion hh)

/-- `get_credentials`: keyring lookup, failing when the entry is absent. -/
def getCredentials (st : StorageState) (account_name : String) :
    Except String String :=
  match st.vault.lookup account_name with
  | some c => .ok c
  | none => .error "Failed to retrieve credentials from keyring"

/-- `store_credentials`: on success the keyring maps `account_name` to
`credentials` (newest entry shadows older ones). -/
def storeCredentialsState (st : StorageState) (account_name credentials : String) :
    StorageState :=
  { st with vault := (account_name, credentials) :: st.vault }

/-- The state effect of `delete_credentials`: removes every keyring
entry for the name (the inner `delete_password` error is ignored by the
source; only `Entry::new` can fail, gated by `Effects.deleteCredOk` at
the call sites). -/
def deleteCredentialsState (st : StorageState) (account_name : String) :
    StorageState :=
  { st with vault := st.vault.filter (fun p => !(p.1 == account_name)) }

/-- In-memory index edit of `rename_account`: `iter_mut().find(...)`
mutates the first account whose name is `old_name`. -/
def updateFirstAccount (old_name new_name : String) (now : Int) :
    List Account → List Account
  | [] => []
  | a :: rest =>
    if a.name == old_name then
      { a with name := new_name, last_updated := now } :: rest
    else
      a :: updateFirstAccount old_name new_name now rest

/-- History migration of `rename_account`: rename the first history record
keyed by `old_name`. -/
def renameFirstHistory (old_name new_name : String) :
    List QuotaHistory → List QuotaHistory
  | [] => []
  | h :: rest =>
    if h.account_name == old_name then
      { h with account_name := new_name } :: rest
    else
      h :: renameFirstHistory old_name new_name rest

/-- `SecureStorage::rename_account` from `src/storage/mod.rs`.  Returns
the resulting persistent state (including partial effects on failure) and
the result of the call. -/
def rename_account (eff : Effects) (now : Int) (st : StorageState)
    (old_name new_name : String) : StorageState × Except String Unit :=
  if old_name == new_name then
    (st, .ok ())
  else if st.accounts.any (fun a => a.name == new_name) then
    (st, .error s!"An account named {new_name} already exists")
  else if st.accounts.any (fun a => a.name == old_name) then
    match getCredentials st old_name with
    | .error e => (st, .error e)
    | .ok credentials =>
      if eff.storeCredOk new_name then
        let st1 := storeCredentialsState st new_name credentials
        if eff.deleteCredOk old_name then
          let st2 := deleteCredentialsState st1 old_name
          if eff.loadHistoryOk then
            if st2.history.any (fun h => h.account_name == old_name) then
              if eff.saveHistoryOk then
                let st3 := { st2 with
                  history := renameFirstHistory old_name new_name st2.history }
                if eff.saveIndexOk then
                  ({ st3 with
                     accounts := updateFirstAccount old_name new_name now st3.accounts },
                   .ok ())
                else (st3, .error "Failed to write accounts index")
              else (st2, .error "Failed to write quota history")
            else
              if eff.saveIndexOk then
                ({ st2 with
                   accounts := updateFirstAccount old_name new_name now st2.accounts },
                 .ok ())
              else (st2, .error "Failed to write accounts index")
          else (st2, .error "Failed to read quota history")
        else (st1, .error "Failed to create keyring entry")
      else (st, .error "Failed to store credentials in keyring")
  else (st, .error s!"Account {old_name} not found")

/-- `SecureStorage::remove_account` from `src/storage/mod.rs`: validate
existence, `delete_credentials(name)?` (fails only at `Entry::new`),
`load_history()?` (a read failure propagates, after the credential is
already gone), prune the history and write it best-effort
(`let _ = self.save_history(...)`), then rewrite the index. -/
def remove_account (eff : Effects) (st : StorageState) (name : String) :
    StorageState × Except String Unit :=
  let retained := st.accounts.filter (fun a => !(a.name == name))
  if retained.length == st.accounts.length then
    (st, .error s!"Account {name} not found")
  else if eff.deleteCredOk name then
    let st1 := deleteCredentialsState st name
    if eff.loadHistoryOk then
      let st2 :=
        if eff.saveHistoryOk then
          { st1 with history := st1.history.filter (fun h => !(h.account_name == name)) }
        else st1
      if eff.saveIndexOk then
        ({ st2 with accounts := retained }, .ok ())
      else (st2, .error "Failed to write accounts index")
    else (st1, .error "Failed to read quota history")
  else (st, .error "Failed to create keyring entry")

/-- `SecureStorage::save_account`: drop any index entry with the same
name, append the new record, rewrite the index. -/
def save_account (eff : Effects) (st : StorageState) (account : Account) :
    StorageState × Except String Unit :=
  let accounts := st.accounts.filter (fun a => !(a.name == account.name)) ++ [account]
  if eff.saveIndexOk then
    ({ st with accounts := accounts }, .ok ())
  else (st, .error "Failed to write accounts index")

/-- `SecureStorage::list_accounts` (document loads are pure in the model). -/
def list_accounts (st : StorageState) : List Account :=
  st.accounts

/-- Change test of `add_quota_snapshot`: the new snapshot is compared with
the last stored one; an empty history always counts as changed. -/
def snapChanged (snapshots : List QuotaSnapshot) (s : QuotaSnapshot) : Bool :=
  match snapshots.getLast? with
  | some last => s.has_changed_from last
  | none => true

/-- Push-and-trim of `add_quota_snapshot` on the snapshot list of one account:
`push` then `remove(0)` once the length exceeds the cap. -/
def appendSnap (cap : Nat) (snapshots : List QuotaSnapshot) (s : QuotaSnapshot) :
    List QuotaSnapshot :=
  let pushed := snapshots ++ [s]
  if cap < pushed.length then pushed.drop 1 else pushed

/-- `SecureStorage::add_quota_snapshot` acting on the loaded
`quota_history.json` document (cap passed explicitly; the source fixes it
to `MAX_HISTORY_SIZE`).  `iter_mut().find(...)` updates the first record
keyed by the account name; with no record, a fresh one is pushed at the
end.  Returns the new document and the `changed` flag; the source writes
the document back only when `changed` holds, so an unchanged document is
also the persisted outcome. -/
def addQuotaSnapshotCap (cap : Nat) (account_name : String) (s : QuotaSnapshot) :
    List QuotaHistory → List QuotaHistory × Bool
  | [] => ([⟨account_name, [s]⟩], true)
  | h :: rest =>
    if h.account_name == account_name then
      if snapChanged h.snapshots s then
        ({ h with snapshots := appendSnap cap h.snapshots s } :: rest, true)
      else
        (h :: rest, false)
    else
      let r := addQuotaSnapshotCap cap account_name s rest
      (h :: r.1, r.2)

/-- `SecureStorage::add_quota_snapshot` with the fixed cap of the source. -/
def add_quota_snapshot (account_name : String) (s : QuotaSnapshot)
    (history : List QuotaHistory) : List QuotaHistory × Bool :=
  addQuotaSnapshotCap MAX_HISTORY_SIZE account_name s history

/-! ## Dashboard model (`src/ui/dashboard.rs`) -/

/-- `Mode` enumeration of the dashboard controller. -/
inductive Mode where
  | Viewing : Mode
  | Renaming (buffer : String) : Mode
  | CreatingAccount (selected_provider : Nat) : Mode
  | CreatingAccountName (provider_id provider_name buffer : String) : Mode
  | Deleting : Mode
deriving DecidableEq, Inhabited

/-- The `PROVIDERS` table of `src/ui/dashboard.rs`. -/
def PROVIDERS : List (String × String) :=
  [("copilot", "GitHub Copilot"), ("openrouter", "OpenRouter")]

/-- The `App` state of the dashboard (the `SecureStorage` handle carries
the persistent state in the model). -/
structure App where
  storage : StorageState
  accounts : List Account
  quotas : List QuotaInfo
  selected_index : Nat
  should_quit : Bool
  status_message : String
  mode : Mode
deriving Inhabited

/-- Key events the `run_app` match distinguishes. -/
inductive Key where
  | enter : Key
  | esc : Key
  | backspace : Key
  | up : Key
  | down : Key
  | char (c : Char) : Key
  | other : Key
deriving DecidableEq

/-- Rust `char::is_control` (Unicode Cc: C0 controls, DEL, C1 controls). -/
def isControlChar (c : Char) : Bool :=
  c.val ≤ 0x1f || (0x7f ≤ c.val && c.val ≤ 0x9f)

/-- Rust `str::trim`: strip leading and trailing whitespace (modelled
over the character list so that it evaluates by structural recursion). -/
def rustTrim (s : String) : String :=
  String.mk
    (((s.data.dropWhile Char.isWhitespace).reverse.dropWhile
        Char.isWhitespace).reverse)

/-- Environment of one event-loop iteration: the write oracle, the
provider fetch outcome per account, the login collaborator
network/user outcome (credential blob or error), and the current time
(`Utc::now().timestamp()` as `now`, the formatted local clock as
`nowStr`). -/
structure Env where
  eff : Effects
  fetch : Account → Except String QuotaInfo
  loginNet : Except String String
  now : Int
  nowStr : String

/-- The `for account in &self.accounts` loop of `App::refresh_quotas`:
successes are pushed (with `account_name` overwritten), failures set the
status message and the error flag. -/
def refreshLoop (fetch : Account → Except String QuotaInfo) :
    List Account → List QuotaInfo → String → Bool →
    List QuotaInfo × String × Bool
  | [], quotas, msg, has_error => (quotas, msg, has_error)
  | account :: rest, quotas, msg, has_error =>
    match fetch account with
    | .ok q =>
      refreshLoop fetch rest (quotas ++ [{ q with account_name := account.name }])
        msg has_error
    | .error e =>
      refreshLoop fetch rest quotas s!"Error fetching {account.name}: {e}" true

/-- `App::refresh_quotas`. -/
def refresh_quotas (fetch : Account → Except String QuotaInfo) (nowStr : String)
    (app : App) : App :=
  let r := refreshLoop fetch app.accounts [] "Refreshing quota information..." false
  { app with
    quotas := r.1,
    status_message := if r.2.2 then r.2.1 else s!"Last updated: {nowStr}" }

/-- `App::next`: selection moves down modulo the account count. -/
def appNext (app : App) : App :=
  if app.accounts.isEmpty then app
  else { app with selected_index := (app.selected_index + 1) % app.accounts.length }

/-- `App::previous`. -/
def appPrevious (app : App) : App :=
  if app.accounts.isEmpty then app
  else
    { app with
      selected_index :=
        if app.selected_index == 0 then app.accounts.length - 1
        else app.selected_index - 1 }

/-- Default account name `"{provider_id}_{unix_timestamp}"`. -/
def defaultAccountName (provider_id : String) (ts : Int) : String :=
  s!"{provider_id}_{ts}"

/-- Storage effect of `auth::copilot::login` / `auth::openrouter::login`:
after the (external) network flow yields a credential blob, both store the
credentials and then `save_account` a fresh record whose provider is the
provider id and whose timestamps are the current time. -/
def loginFlow (eff : Effects) (net : Except String String) (now : Int)
    (st : StorageState) (provider account_name : String) :
    StorageState × Except String Unit :=
  match net with
  | .error e => (st, .error e)
  | .ok credentials_json =>
    if eff.storeCredOk account_name then
      let st1 := storeCredentialsState st account_name credentials_json
      save_account eff st1
        { name := account_name, provider := provider, email := none,
          created_at := now, last_updated := now }
    else (st, .error "Failed to store credentials in keyring")

/-- Provider dispatch of `run_app` for the login flow (the
wildcard arm is `unreachable!()`; the cursor is clamped to the provider
table, so it is never taken from a reachable state). -/
def loginDispatch (env : Env) (st : StorageState)
    (provider_id account_name : String) : StorageState × Except String Unit :=
  if provider_id == "copilot" || provider_id == "openrouter" then
    loginFlow env.eff env.loginNet env.now st provider_id account_name
  else (st, .error "unreachable provider")

/-- The `Mode::Viewing` arm of the `run_app` key match. -/
def stepViewing (env : Env) (app : App) (key : Key) : App :=
  match key with
  | .esc => { app with should_quit := true }
  | .down => appNext app
  | .up => appPrevious app
  | .char c =>
    if c == 'q' then { app with should_quit := true }
    else if c == 'R' then refresh_quotas env.fetch env.nowStr app
    else if c == 'r' then
      match app.accounts.get? app.selected_index with
      | some account =>
        { app with
          mode := .Renaming account.name,
          status_message := "Renaming mode: press Enter to confirm, Esc to cancel" }
      | none => app
    else if c == 'n' then
      { app with
        mode := .CreatingAccount 0,
        status_message := "Select provider: up/down to navigate, Enter to select, Esc to cancel" }
    else if c == 'd' then
      match app.accounts.get? app.selected_index with
      | some account =>
        { app with
          mode := .Deleting,
          status_message := s!"Delete account {account.name}? Press Enter to confirm, Esc to cancel" }
      | none => app
    else if c == 'j' then appNext app
    else if c == 'k' then appPrevious app
    else app
  | _ => app

/-- The `Mode::Renaming` arm of the `run_app` key match. -/
def stepRenaming (env : Env) (app : App) (buffer : String) (key : Key) : App :=
  match key with
  | .enter =>
    match app.accounts.get? app.selected_index with
    | some account =>
      let trimmed := rustTrim buffer
      if trimmed == "" then
        { app with status_message := "Name cannot be empty" }
      else
        match rename_account env.eff env.now app.storage account.name trimmed with
        | (st2, .error err) =>
          { app with storage := st2, status_message := s!"Rename failed: {err}" }
        | (st2, .ok _) =>
          refresh_quotas env.fetch env.nowStr
            { app with
              storage := st2,
              accounts := app.accounts.set app.selected_index
                { account with name := trimmed },
              status_message := "Account renamed",
              mode := .Viewing }
    | none => app
  | .esc =>
    { app with mode := .Viewing, status_message := "Rename cancelled" }
  | .backspace => { app with mode := .Renaming (buffer.dropRight 1) }
  | .char c =>
    if isControlChar c then app
    else { app with mode := .Renaming (buffer.push c) }
  | _ => app

/-- The `Mode::CreatingAccount` arm of the `run_app` key match. -/
def stepCreatingAccount (env : Env) (app : App) (selected_provider : Nat)
    (key : Key) : App :=
  match key with
  | .enter =>
    let p := PROVIDERS.getD selected_provider ("", "")
    { app with
      mode := .CreatingAccountName p.1 p.2 (defaultAccountName p.1 env.now),
      status_message := "Enter account name (optional, press Enter for default):" }
  | .esc =>
    { app with mode := .Viewing, status_message := "Account creation cancelled" }
  | .down =>
    if selected_provider < PROVIDERS.length - 1 then
      { app with mode := .CreatingAccount (selected_provider + 1) }
    else app
  | .up =>
    if 0 < selected_provider then
      { app with mode := .CreatingAccount (selected_provider - 1) }
    else app
  | .char c =>
    if c == 'j' then
      if selected_provider < PROVIDERS.length - 1 then
        { app with mode := .CreatingAccount (selected_provider + 1) }
      else app
    else if c == 'k' then
      if 0 < selected_provider then
        { app with mode := .CreatingAccount (selected_provider - 1) }
      else app
    else app
  | _ => app

/-- The `Mode::CreatingAccountName` arm of the `run_app` key match (the
terminal suspend/resume around the login flow carries no model state). -/
def stepCreatingName (env : Env) (app : App)
    (provider_id provider_name buffer : String) (key : Key) : App :=
  match key with
  | .enter =>
    let account_name :=
      if rustTrim buffer == "" then defaultAccountName provider_id env.now
      else rustTrim buffer
    let app1 := { app with
      mode := .Viewing,
      status_message := s!"Creating {provider_name} account..." }
    match loginDispatch env app.storage provider_id account_name with
    | (st2, .ok _) =>
      let accounts := list_accounts st2
      refresh_quotas env.fetch env.nowStr
        { app1 with
          storage := st2,
          accounts := accounts,
          selected_index :=
            if accounts.isEmpty then app1.selected_index
            else accounts.length - 1,
          status_message :=
            s!"{provider_name} account {account_name} added successfully" }
    | (st2, .error e) =>
      { app1 with storage := st2, status_message := s!"Failed to add account: {e}" }
  | .esc =>
    { app with mode := .Viewing, status_message := "Account creation cancelled" }
  | .backspace =>
    { app with mode := .CreatingAccountName provider_id provider_name (buffer.dropRight 1) }
  | .char c =>
    if isControlChar c then app
    else
      { app with
        mode := .CreatingAccountName provider_id provider_name (buffer.push c) }
  | _ => app

/-- The `Mode::Deleting` arm of the `run_app` key match. -/
def stepDeleting (env : Env) (app : App) (key : Key) : App :=
  match key with
  | .enter =>
    match app.accounts.get? app.selected_index with
    | some account =>
      match remove_account env.eff app.storage account.name with
      | (st2, .ok _) =>
        let accounts := list_accounts st2
        let selected :=
          if accounts.isEmpty then 0
          else if accounts.length ≤ app.selected_index then accounts.length - 1
          else app.selected_index
        let app2 := refresh_quotas env.fetch env.nowStr
          { app with
            storage := st2,
            accounts := accounts,
            selected_index := selected,
            quotas := [],
            status_message := s!"Account {account.name} deleted" }
        { app2 with mode := .Viewing }
      | (st2, .error e) =>
        { app with
          storage := st2,
          status_message := s!"Failed to delete account: {e}",
          mode := .Viewing }
    | none => { app with mode := .Viewing }
  | .esc =>
    { app with mode := .Viewing, status_message := "Delete cancelled" }
  | _ => app

/-- One key-event step of `run_app` (`src/ui/dashboard.rs`, the
`match &mut app.mode` body). -/
def step (env : Env) (app : App) (key : Key) : App :=
  match app.mode with
  | .Viewing => stepViewing env app key
  | .Renaming buffer => stepRenaming env app buffer key
  | .CreatingAccount selected_provider =>
    stepCreatingAccount env app selected_provider key
  | .CreatingAccountName provider_id provider_name buffer =>
    stepCreatingName env app provider_id provider_name buffer key
  | .Deleting => stepDeleting env app key

/-! ## Report arithmetic (`src/main.rs`, `format_requests_with_bar`) -/

/-- `max_requests.saturating_sub(requests)` (Nat subtraction saturates). -/
def requestsRemaining (requests max_requests : Nat) : Nat :=
  max_requests - requests

/-- The percent-used figure of `format_requests_with_bar`: `(requests /
max_requests) * 100` when the limit is positive, else `0.0`. -/
def requestsPercentUsed (requests max_requests : Nat) : ℚ :=
  if 0 < max_requests then (requests : ℚ) / (max_requests : ℚ) * 100 else 0

/-- `bar_width` in `format_requests_with_bar`. -/
def barWidth : Nat := 20

/-- `filled` in `format_requests_with_bar`:
`(percent_used / 100.0 * bar_width as f64) as usize` — the
float-to-integer cast truncates toward zero, i.e. `floor` on these
non-negative values.  The next source line computes
`empty = bar_width - filled` in `usize`, which underflows (and panics)
whenever `filled` exceeds `barWidth`. -/
def barFilled (requests max_requests : Nat) : Nat :=
  (⌊requestsPercentUsed requests max_requests / 100 * (barWidth : ℚ)⌋).toNat

/-! ## Shared helper lemmas -/

lemma lookup_filter_ne (l : List (String × String)) (k : String) :
    (l.filter (fun p => !(p.1 == k))).lookup k = none := by
  induction l with
  | nil => rfl
  | cons p t ih =>
    obtain ⟨k', v⟩ := p
    rw [List.filter_cons]
    by_cases h : k' = k
    · simpa [h] using ih
    · have hk : (!(k' == k)) = true := by simp [h]
      have hk2 : (k == k') = false := beq_eq_false_iff_ne.mpr (Ne.symm h)
      rw [hk, if_pos rfl]
      simp [List.lookup, hk2, ih]

lemma addQuotaSnapshotCap_append_of_not_mem (cap : Nat) (name : String)
    (s : QuotaSnapshot) (pre l : List QuotaHistory)
    (hpre : ∀ h ∈ pre, h.account_name ≠ name) :
    addQuotaSnapshotCap cap name s (pre ++ l) =
      (pre ++ (addQuotaSnapshotCap cap name s l).1,
       (addQuotaSnapshotCap cap name s l).2) := by
  induction pre with
  | nil => simp [addQuotaSnapshotCap]
  | cons h t ih =>
    have hh : (h.account_name == name) = false :=
      beq_eq_false_iff_ne.mpr (hpre h (by simp))
    simp [addQuotaSnapshotCap, hh, ih (fun x hx => hpre x (by simp [hx]))]

/-! ## Claims about the storage layer -/

/-- C10: `rename_account(n, n)` returns success immediately and leaves the
index, vault and history untouched (no `AlreadyExists` failure, no
`last_updated` update). -/
theorem rename_account_self_noop (eff : Effects) (now : Int)
    (st : StorageState) (n : String) :
    rename_account eff now st n n = (st, Except.ok ()) := by
  simp [rename_account]

/-- C9 (code bug): at the claimed input `requests_made = 120`,
`max_requests = 100`, the remaining/percent arithmetic of
`format_requests_with_bar` does yield remaining `0` (saturating) and
percent-used `120` uncapped — but the function never reports them: its
bar fill evaluates to `24`, which exceeds `bar_width = 20`, so the
`usize` subtraction `bar_width - filled` in the source underflows and
the call panics instead of returning the formatted report. -/
theorem requests_bar_underflow :
    requestsRemaining 120 100 = 0 ∧
    requestsPercentUsed 120 100 = 120 ∧
    barFilled 120 100 = 24 ∧
    barWidth < barFilled 120 100 := by
  have h24 : requestsPercentUsed 120 100 / 100 * (barWidth : ℚ) = 24 := by
    norm_num [requestsPercentUsed, barWidth]
  refine ⟨rfl, by norm_num [requestsPercentUsed], ?_, ?_⟩
  · rw [barFilled, h24]; decide
  · rw [barFilled, h24]; decide

/-- C1: if the credential copy step of `rename_account` fails, the call
errors and the persisted index is unchanged — it still holds an account
named `old_name` and none named `new_name`. -/
theorem rename_account_atomic_on_cred_copy_failure
    (eff : Effects) (now : Int) (st : StorageState) (old_name new_name : String)
    (hne : old_name ≠ new_name)
    (hnew : ∀ a ∈ st.accounts, a.name ≠ new_name)
    (hold : ∃ a ∈ st.accounts, a.name = old_name)
    (hcred : ∃ c, st.vault.lookup old_name = some c)
    (hfail : eff.storeCredOk new_name = false) :
    (∃ e, rename_account eff now st old_name new_name = (st, Except.error e)) ∧
    (rename_account eff now st old_name new_name).1.accounts = st.accounts ∧
    (∃ a ∈ (rename_account eff now st old_name new_name).1.accounts,
      a.name = old_name) ∧
    (∀ a ∈ (rename_account eff now st old_name new_name).1.accounts,
      a.name ≠ new_name) := by
  obtain ⟨c, hc⟩ := hcred
  obtain ⟨a0, ha0, ha0n⟩ := hold
  have h1 : (old_name == new_name) = false := beq_eq_false_iff_ne.mpr hne
  have h2 : st.accounts.any (fun a => a.name == new_name) = false := by
    simp only [List.any_eq_false]
    intro a ha
    simp [hnew a ha]
  have h3 : st.accounts.any (fun a => a.name == old_name) = true := by
    simp only [List.any_eq_true]
    exact ⟨a0, ha0, by simp [ha0n]⟩
  have hres : rename_account eff now st old_name new_name =
      (st, Except.error "Failed to store credentials in keyring") := by
    simp [rename_account, h1, h2, h3, getCredentials, hc, hfail]
  rw [hres]
  exact ⟨⟨_, rfl⟩, rfl, ⟨a0, ha0, ha0n⟩, hnew⟩

/-- Write oracle whose keyring stores always fail (document writes fine). -/
def effNoStore : Effects := ⟨fun _ => false, true, true, fun _ => true, true⟩

/-- One-account storage state used as a concrete input. -/
def stOneAccount : StorageState :=
  ⟨[⟨"a", "copilot", none, 0, 0⟩], [("a", "cred")], []⟩

/-- Witness for C1 on a concrete one-account state. -/
theorem rename_account_atomic_witness :
    (∃ e, rename_account effNoStore 0 stOneAccount "a" "b" =
      (stOneAccount, Except.error e)) ∧
    (rename_account effNoStore 0 stOneAccount "a" "b").1.accounts =
      stOneAccount.accounts ∧
    (∃ a ∈ (rename_account effNoStore 0 stOneAccount "a" "b").1.accounts,
      a.name = "a") ∧
    (∀ a ∈ (rename_account effNoStore 0 stOneAccount "a" "b").1.accounts,
      a.name ≠ "b") :=
  rename_account_atomic_on_cred_copy_failure effNoStore 0 stOneAccount "a" "b"
    (by decide) (by decide) (by decide) ⟨"cred", rfl⟩ rfl

/-- Write oracle where only the history document write fails. -/
def effNoHistory : Effects := ⟨fun _ => true, true, false, fun _ => true, true⟩

/-- Write oracle where only the history document read fails. -/
def effNoHistLoad : Effects := ⟨fun _ => true, true, true, fun _ => true, false⟩

/-- Counterexample to C4 as stated: when the history-removal step fails
at its read (`load_history()?` in `remove_account`), the call returns an
error — removal does not always survive a failing history-removal step.
The credential is already deleted at that point while the persisted
index still holds the account. -/
theorem remove_account_error_on_history_read :
    (remove_account effNoHistLoad stOneAccount "a").2 ≠ Except.ok () ∧
    (remove_account effNoHistLoad stOneAccount "a").2 =
      Except.error "Failed to read quota history" ∧
    (remove_account effNoHistLoad stOneAccount "a").1.accounts =
      stOneAccount.accounts ∧
    (remove_account effNoHistLoad stOneAccount "a").1.vault.lookup "a" = none :=
  ⟨by decide, by decide, by decide, by decide⟩

/-- The nearby statement that holds for C4: on an existing account, with
the keyring entry creatable and the history document readable,
`remove_account` succeeds, removes the account from the index, deletes
its credential, and clears its history when the history write succeeds —
and it still succeeds when the best-effort history *write* fails (no
condition on `saveHistoryOk`).  Only the write is best-effort: when the
history document *read* fails, the call returns an error (with the
credential already deleted and the index untouched). -/
theorem remove_account_cascade
    (eff : Effects) (st : StorageState) (name : String)
    (hin : ∃ a ∈ st.accounts, a.name = name)
    (hdel : eff.deleteCredOk name = true)
    (hidx : eff.saveIndexOk = true) :
    (eff.loadHistoryOk = true →
      (remove_account eff st name).2 = Except.ok () ∧
      (∀ a ∈ (remove_account eff st name).1.accounts, a.name ≠ name) ∧
      (remove_account eff st name).1.vault.lookup name = none ∧
      (eff.saveHistoryOk = true →
        ∀ h ∈ (remove_account eff st name).1.history, h.account_name ≠ name)) ∧
    (eff.loadHistoryOk = false →
      (remove_account eff st name).2 =
        Except.error "Failed to read quota history" ∧
      (remove_account eff st name).1.accounts = st.accounts ∧
      (remove_account eff st name).1.vault.lookup name = none) := by
  obtain ⟨a0, ha0, ha0n⟩ := hin
  have hlt : (st.accounts.filter (fun a => !(a.name == name))).length <
      st.accounts.length :=
    List.length_filter_lt_length_iff_exists.mpr ⟨a0, ha0, by simp [ha0n]⟩
  have hne : ((st.accounts.filter (fun a => !(a.name == name))).length ==
      st.accounts.length) = false :=
    beq_eq_false_iff_ne.mpr (Nat.ne_of_lt hlt)
  constructor
  · intro hload
    cases hsh : eff.saveHistoryOk with
    | false =>
      have hres : remove_account eff st name =
          ({ st with
             vault := st.vault.filter (fun p => !(p.1 == name)),
             accounts := st.accounts.filter (fun a => !(a.name == name)) },
           Except.ok ()) := by
        simp [remove_account, hne, hidx, hdel, hload, hsh, deleteCredentialsState]
      rw [hres]
      refine ⟨rfl, ?_, lookup_filter_ne _ _, by simp [hsh]⟩
      intro a ha
      have := (List.mem_filter.mp ha).2
      simpa using this
    | true =>
      have hres : remove_account eff st name =
          ({ st with
             vault := st.vault.filter (fun p => !(p.1 == name)),
             history := st.history.filter (fun h => !(h.account_name == name)),
             accounts := st.accounts.filter (fun a => !(a.name == name)) },
           Except.ok ()) := by
        simp [remove_account, hne, hidx, hdel, hload, hsh, deleteCredentialsState]
      rw [hres]
      refine ⟨rfl, ?_, lookup_filter_ne _ _, ?_⟩
      · intro a ha
        have := (List.mem_filter.mp ha).2
        simpa using this
      · intro _ h hh
        have := (List.mem_filter.mp hh).2
        simpa using this
  · intro hload
    have hres : remove_account eff st name =
        ({ st with vault := st.vault.filter (fun p => !(p.1 == name)) },
         Except.error "Failed to read quota history") := by
      simp [remove_account, hne, hdel, hload, deleteCredentialsState]
    rw [hres]
    exact ⟨rfl, rfl, lookup_filter_ne _ _⟩

/-- Witness for the amended C4: removal succeeds at an oracle whose
history write fails, and errors at an oracle whose history read fails. -/
theorem remove_account_cascade_witness :
    ((remove_account effNoHistory stOneAccount "a").2 = Except.ok () ∧
     (∀ a ∈ (remove_account effNoHistory stOneAccount "a").1.accounts,
       a.name ≠ "a") ∧
     (remove_account effNoHistory stOneAccount "a").1.vault.lookup "a" = none ∧
     (effNoHistory.saveHistoryOk = true →
       ∀ h ∈ (remove_account effNoHistory stOneAccount "a").1.history,
         h.account_name ≠ "a")) ∧
    ((remove_account effNoHistLoad stOneAccount "a").2 =
       Except.error "Failed to read quota history" ∧
     (remove_account effNoHistLoad stOneAccount "a").1.accounts =
       stOneAccount.accounts ∧
     (remove_account effNoHistLoad stOneAccount "a").1.vault.lookup "a" = none) :=
  ⟨(remove_account_cascade effNoHistory stOneAccount "a"
      (by decide) rfl rfl).1 rfl,
   (remove_account_cascade effNoHistLoad stOneAccount "a"
      (by decide) rfl rfl).2 rfl⟩

/-- C7: appending a snapshot whose tokens/requests/cost all equal those of
the last stored snapshot is a no-op: `changed = false` and the stored
document is returned unchanged, whatever timestamp the new snapshot has. -/
theorem add_quota_snapshot_dedup_noop
    (pre rest : List QuotaHistory) (name : String) (snaps : List QuotaSnapshot)
    (s last : QuotaSnapshot)
    (hpre : ∀ h ∈ pre, h.account_name ≠ name)
    (hlast : snaps.getLast? = some last)
    (ht : s.tokens_used = last.tokens_used)
    (hr : s.requests_made = last.requests_made)
    (hc : s.cost = last.cost) :
    add_quota_snapshot name s (pre ++ ⟨name, snaps⟩ :: rest) =
      (pre ++ ⟨name, snaps⟩ :: rest, false) := by
  have hch : snapChanged snaps s = false := by
    simp [snapChanged, hlast, QuotaSnapshot.has_changed_from, ht, hr, hc]
  rw [add_quota_snapshot, addQuotaSnapshotCap_append_of_not_mem _ _ _ _ _ hpre]
  simp [addQuotaSnapshotCap, hch]

/-- A usage snapshot with small concrete values. -/
def snapA : QuotaSnapshot := ⟨0, some 0, none, none⟩

/-- A snapshot differing from `snapA` in tokens (and timestamp). -/
def snapB : QuotaSnapshot := ⟨1, some 1, none, none⟩

/-- `snapA` with only the timestamp changed. -/
def snapA' : QuotaSnapshot := ⟨5, some 0, none, none⟩

/-- Witness for C7: same usage values, different timestamp, no-op. -/
theorem add_quota_snapshot_dedup_noop_witness :
    add_quota_snapshot "x" snapA' ([] ++ ⟨"x", [snapA]⟩ :: []) =
      ([] ++ ⟨"x", [snapA]⟩ :: [], false) :=
  add_quota_snapshot_dedup_noop [] [] "x" [snapA] snapA' snapA
    (by decide) (by decide) (by decide) (by decide) (by decide)

lemma appendSnap_of_lt (cap : Nat) (snaps : List QuotaSnapshot)
    (s : QuotaSnapshot) (h : snaps.length < cap) :
    appendSnap cap snaps s = snaps ++ [s] := by
  simp only [appendSnap, List.length_append, List.length_cons, List.length_nil]
  rw [if_neg (by omega)]

lemma appendSnap_at_cap (cap : Nat) (snaps : List QuotaSnapshot)
    (s : QuotaSnapshot) (h : snaps.length = cap) (hcap : 1 ≤ cap) :
    appendSnap cap snaps s = snaps.drop 1 ++ [s] := by
  simp only [appendSnap, List.length_append, List.length_cons, List.length_nil]
  rw [if_pos (by omega), List.drop_append_of_le_length (by omega)]

/-- Folding consecutive-changed snapshots into a single-record document
keeps the last `cap` of them: the front is evicted one append at a time. -/
lemma fold_doc_single (cap : Nat) (name : String) (ss : List QuotaSnapshot) :
    ∀ (snaps : List QuotaSnapshot) (p : QuotaSnapshot),
      snaps.getLast? = some p →
      List.Chain' (fun a b => b.has_changed_from a = true) (p :: ss) →
      snaps.length ≤ cap → 1 ≤ cap →
      ss.foldl (fun doc s => (addQuotaSnapshotCap cap name s doc).1)
          [⟨name, snaps⟩] =
        [⟨name, (snaps ++ ss).drop (snaps.length + ss.length - cap)⟩] := by
  induction ss with
  | nil =>
    intro snaps p _ _ hlen _
    simp [Nat.sub_eq_zero_of_le hlen]
  | cons s rest ih =>
    intro snaps p hlast hch hlen hcap
    have hRps : s.has_changed_from p = true := (List.chain'_cons.mp hch).1
    have hchanged : snapChanged snaps s = true := by
      simp [snapChanged, hlast, hRps]
    have hstep : (addQuotaSnapshotCap cap name s [⟨name, snaps⟩]).1 =
        [⟨name, appendSnap cap snaps s⟩] := by
      simp [addQuotaSnapshotCap, hchanged]
    rw [List.foldl_cons, hstep]
    rcases lt_or_eq_of_le hlen with hlt | heq
    · rw [appendSnap_of_lt cap snaps s hlt]
      rw [ih (snaps ++ [s]) s (List.getLast?_concat _)
          (List.chain'_cons.mp hch).2 (by simp; omega) hcap]
      have harr : (snaps ++ [s]) ++ rest = snaps ++ s :: rest := by simp
      have hlen2 : (snaps ++ [s]).length + rest.length - cap =
          snaps.length + (s :: rest).length - cap := by simp; omega
      rw [harr, hlen2]
    · rw [appendSnap_at_cap cap snaps s heq hcap]
      rw [ih (snaps.drop 1 ++ [s]) s (List.getLast?_concat _)
          (List.chain'_cons.mp hch).2 (by simp [List.length_drop]; omega) hcap]
      have harr : (snaps.drop 1 ++ [s]) ++ rest = snaps.drop 1 ++ s :: rest := by
        simp
      have hlen2 : (snaps.drop 1 ++ [s]).length + rest.length - cap =
          rest.length := by simp [List.length_drop]; omega
      have hlen3 : snaps.length + (s :: rest).length - cap = 1 + rest.length := by
        simp; omega
      rw [harr, hlen2, hlen3]
      have hsplit : (snaps ++ s :: rest).drop (1 + rest.length) =
          ((snaps ++ s :: rest).drop 1).drop rest.length :=
        (List.drop_drop rest.length 1 _).symm
      have hinner : (snaps ++ s :: rest).drop 1 = snaps.drop 1 ++ s :: rest :=
        List.drop_append_of_le_length (by omega)
      rw [hsplit, hinner]

/-- C6: at the cap of `MAX_HISTORY_SIZE = 100` snapshots, appending a
changed snapshot leaves exactly 100 entries with the oldest evicted from
the front and the new snapshot last; generally, folding `N + 1`
pairwise-distinct snapshots (distinct in tokens/requests/cost) into an
empty document under cap `N ≥ 1` leaves exactly the last `N` of them. -/
theorem history_cap_eviction :
    (∀ (pre rest : List QuotaHistory) (name : String)
       (snaps : List QuotaSnapshot) (s : QuotaSnapshot),
       (∀ h ∈ pre, h.account_name ≠ name) →
       snaps.length = MAX_HISTORY_SIZE →
       snapChanged snaps s = true →
       (add_quota_snapshot name s (pre ++ ⟨name, snaps⟩ :: rest)).1 =
         pre ++ ⟨name, snaps.drop 1 ++ [s]⟩ :: rest ∧
       (snaps.drop 1 ++ [s]).length = MAX_HISTORY_SIZE ∧
       (snaps.drop 1 ++ [s]).getLast? = some s) ∧
    (∀ (N : Nat) (name : String) (ss : List QuotaSnapshot),
       1 ≤ N → ss.length = N + 1 →
       ss.Pairwise (fun a b => b.has_changed_from a = true) →
       ss.foldl (fun doc s => (addQuotaSnapshotCap N name s doc).1) [] =
         [⟨name, ss.drop 1⟩] ∧
       (ss.drop 1).length = N) := by
  constructor
  · intro pre rest name snaps s hpre hlen hch
    have hcap : appendSnap MAX_HISTORY_SIZE snaps s = snaps.drop 1 ++ [s] :=
      appendSnap_at_cap _ snaps s hlen (by norm_num [MAX_HISTORY_SIZE])
    refine ⟨?_, ?_, List.getLast?_concat _⟩
    · rw [add_quota_snapshot,
        addQuotaSnapshotCap_append_of_not_mem _ _ _ _ _ hpre]
      simp [addQuotaSnapshotCap, hch, hcap]
    · have : 1 ≤ snaps.length := by rw [hlen]; norm_num [MAX_HISTORY_SIZE]
      simp
      omega
  · intro N name ss hN hlen hpw
    cases ss with
    | nil => simp at hlen
    | cons s0 rest =>
      have hfirst : (addQuotaSnapshotCap N name s0 []).1 = [⟨name, [s0]⟩] := by
        simp [addQuotaSnapshotCap]
      rw [List.foldl_cons, hfirst,
        fold_doc_single N name rest [s0] s0 rfl hpw.chain'
          (by simp at hlen ⊢; omega) hN]
      have hlen2 : [s0].length + rest.length - N = 1 := by
        simp at hlen ⊢; omega
      rw [hlen2]
      constructor
      · simp
      · simp at hlen ⊢
        omega

/-- Witness for C6: a 100-entry history at the cap, and a two-snapshot
fold under cap 1. -/
theorem history_cap_eviction_witness :
    ((add_quota_snapshot "x" snapB
        ([] ++ ⟨"x", List.replicate 100 snapA⟩ :: [])).1 =
       [] ++ ⟨"x", (List.replicate 100 snapA).drop 1 ++ [snapB]⟩ :: [] ∧
     ((List.replicate 100 snapA).drop 1 ++ [snapB]).length = MAX_HISTORY_SIZE ∧
     ((List.replicate 100 snapA).drop 1 ++ [snapB]).getLast? = some snapB) ∧
    ([snapA, snapB].foldl (fun doc s => (addQuotaSnapshotCap 1 "x" s doc).1) [] =
       [⟨"x", [snapA, snapB].drop 1⟩] ∧
     ([snapA, snapB].drop 1).length = 1) :=
  ⟨history_cap_eviction.1 [] [] "x" (List.replicate 100 snapA) snapB
      (by simp) (by simp [MAX_HISTORY_SIZE]) (by decide),
   history_cap_eviction.2 1 "x" [snapA, snapB]
      (by decide) (by decide) (by decide)⟩

/-! ## Claims about the dashboard controller -/

lemma refresh_quotas_mode (fetch : Account → Except String QuotaInfo)
    (nowStr : String) (app : App) :
    (refresh_quotas fetch nowStr app).mode = app.mode := rfl

lemma refresh_quotas_accounts (fetch : Account → Except String QuotaInfo)
    (nowStr : String) (app : App) :
    (refresh_quotas fetch nowStr app).accounts = app.accounts := rfl

lemma refresh_quotas_storage (fetch : Account → Except String QuotaInfo)
    (nowStr : String) (app : App) :
    (refresh_quotas fetch nowStr app).storage = app.storage := rfl

lemma refresh_quotas_selected (fetch : Account → Except String QuotaInfo)
    (nowStr : String) (app : App) :
    (refresh_quotas fetch nowStr app).selected_index = app.selected_index := rfl

/-- The error messages a refresh pass produces, in account order. -/
def fetchErrMsgs (fetch : Account → Except String QuotaInfo)
    (accounts : List Account) : List String :=
  accounts.filterMap (fun account =>
    match fetch account with
    | .error e => some s!"Error fetching {account.name}: {e}"
    | .ok _ => none)

lemma refreshLoop_quotas (fetch : Account → Except String QuotaInfo) :
    ∀ (l : List Account) (qs : List QuotaInfo) (msg : String) (he : Bool),
      (refreshLoop fetch l qs msg he).1 =
        qs ++ l.filterMap (fun account => (fetch account).toOption.map
          (fun q => { q with account_name := account.name })) := by
  intro l
  induction l with
  | nil => intro qs msg he; simp [refreshLoop]
  | cons a rest ih =>
    intro qs msg he
    cases hf : fetch a with
    | ok q => simp [refreshLoop, hf, ih, Except.toOption]
    | error e => simp [refreshLoop, hf, ih, Except.toOption]

lemma getLast?_getD_cons (x d : String) (l : List String) :
    ((x :: l).getLast?).getD d = (l.getLast?).getD x := by
  rw [List.getLast?_cons]
  rfl

lemma refreshLoop_status (fetch : Account → Except String QuotaInfo) :
    ∀ (l : List Account) (qs : List QuotaInfo) (msg : String) (he : Bool),
      (refreshLoop fetch l qs msg he).2.1 =
        ((fetchErrMsgs fetch l).getLast?).getD msg := by
  intro l
  induction l with
  | nil => intro qs msg he; simp [refreshLoop, fetchErrMsgs]
  | cons a rest ih =>
    intro qs msg he
    cases hf : fetch a with
    | ok q => simp [refreshLoop, hf, ih, fetchErrMsgs]
    | error e =>
      simp only [refreshLoop, hf, ih, fetchErrMsgs, List.filterMap_cons]
      rw [getLast?_getD_cons]

lemma refreshLoop_has_error (fetch : Account → Except String QuotaInfo) :
    ∀ (l : List Account) (qs : List QuotaInfo) (msg : String) (he : Bool),
      (refreshLoop fetch l qs msg he).2.2 =
        (he || l.any (fun account => !(fetch account).toOption.isSome)) := by
  intro l
  induction l with
  | nil => intro qs msg he; simp [refreshLoop]
  | cons a rest ih =>
    intro qs msg he
    cases hf : fetch a with
    | ok q => simp [refreshLoop, hf, ih, Except.toOption]
    | error e => simp [refreshLoop, hf, ih, Except.toOption]

lemma errMsgs_nil_iff (fetch : Account → Except String QuotaInfo)
    (l : List Account) :
    fetchErrMsgs fetch l = [] ↔
      l.any (fun account => !(fetch account).toOption.isSome) = false := by
  rw [fetchErrMsgs, List.filterMap_eq_nil_iff, List.any_eq_false]
  refine forall_congr' fun account => ?_
  refine imp_congr_right fun _ => ?_
  cases hf : fetch account <;> simp [Except.toOption]

lemma filterMap_all_some_correspond
    (fetch : Account → Except String QuotaInfo) :
    ∀ (l : List Account),
      (∀ a ∈ l, (fetch a).toOption.isSome = true) →
      ∀ i : Nat,
        ((l.filterMap (fun account => (fetch account).toOption.map
            (fun q => { q with account_name := account.name }))).get? i).map
          (fun q => q.account_name) =
        (l.get? i).map (fun a => a.name) := by
  intro l
  induction l with
  | nil => intro _ i; simp
  | cons a rest ih =>
    intro hall i
    obtain ⟨q, hq⟩ := Option.isSome_iff_exists.mp (hall a (by simp))
    cases i with
    | zero => simp [hq]
    | succ j => simpa [hq] using ih (fun x hx => hall x (by simp [hx])) j

/-- The nearby statement that holds for C5: a refresh walks the account
list in order; each success appends its (renamed) `QuotaInfo` to the
cached list, each failure appends nothing and overwrites the status with
its error message (last failure wins; with no failure the status is the
"Last updated" line); the cached-quota/account index correspondence holds
when every fetch succeeds. -/
theorem refresh_quotas_spec (fetch : Account → Except String QuotaInfo)
    (nowStr : String) (app : App) :
    (refresh_quotas fetch nowStr app).quotas =
      app.accounts.filterMap (fun account => (fetch account).toOption.map
        (fun q => { q with account_name := account.name })) ∧
    (refresh_quotas fetch nowStr app).status_message =
      (match (fetchErrMsgs fetch app.accounts).getLast? with
       | some m => m
       | none => s!"Last updated: {nowStr}") ∧
    ((∀ a ∈ app.accounts, (fetch a).toOption.isSome = true) →
      ∀ i : Nat,
        (((refresh_quotas fetch nowStr app).quotas.get? i).map
          (fun q => q.account_name)) =
        ((app.accounts.get? i).map (fun a => a.name))) ∧
    (refresh_quotas fetch nowStr app).accounts = app.accounts := by
  have hq : (refresh_quotas fetch nowStr app).quotas =
      app.accounts.filterMap (fun account => (fetch account).toOption.map
        (fun q => { q with account_name := account.name })) := by
    show (refreshLoop fetch app.accounts [] _ false).1 = _
    rw [refreshLoop_quotas]
    simp
  refine ⟨hq, ?_, ?_, rfl⟩
  · show (if (refreshLoop fetch app.accounts [] _ false).2.2 then
        (refreshLoop fetch app.accounts [] _ false).2.1 else _) = _
    rw [refreshLoop_has_error, refreshLoop_status]
    cases hany : app.accounts.any
        (fun account => !(fetch account).toOption.isSome) with
    | false =>
      have : fetchErrMsgs fetch app.accounts = [] :=
        (errMsgs_nil_iff fetch app.accounts).mpr hany
      simp [this]
    | true =>
      have hne : fetchErrMsgs fetch app.accounts ≠ [] := by
        intro hnil
        rw [(errMsgs_nil_iff fetch app.accounts).mp hnil] at hany
        exact Bool.false_ne_true hany
      obtain ⟨m, hm⟩ := Option.ne_none_iff_exists'.mp
        (mt List.getLast?_eq_none_iff.mp hne)
      simp [hm]
  · intro hall i
    rw [hq]
    exact filterMap_all_some_correspond fetch app.accounts hall i

/-- Account "a" used in concrete dashboard states. -/
def accA : Account := ⟨"a", "copilot", none, 0, 0⟩

/-- Account "b" used in concrete dashboard states. -/
def accB : Account := ⟨"b", "copilot", none, 0, 0⟩

/-- A concrete quota result. -/
def quotaB : QuotaInfo := ⟨"copilot", "", ⟨none, some 1, none⟩, none, none, 0⟩

/-- Fetch oracle that fails for account "a" and succeeds otherwise. -/
def fetchAB : Account → Except String QuotaInfo := fun account =>
  if account.name == "a" then .error "boom" else .ok quotaB

/-- Two-account dashboard state in `Viewing` mode. -/
def appAB : App :=
  ⟨⟨[accA, accB], [("a", "cred"), ("b", "cred")], []⟩,
   [accA, accB], [], 0, false, "", .Viewing⟩

/-- Counterexample to C5 as stated: with two accounts where the first
fetch fails and the second succeeds, the pass leaves a single cached
quota, and the quota at index 0 belongs to account "b" while the account
at index 0 is "a" — the cached quota at index i does not correspond to
the account at index i. -/
theorem refresh_quotas_slot_mismatch :
    (refresh_quotas fetchAB "t" appAB).quotas.length = 1 ∧
    appAB.accounts.length = 2 ∧
    (((refresh_quotas fetchAB "t" appAB).quotas.get? 0).map
      (fun q => q.account_name)) = some "b" ∧
    ((appAB.accounts.get? 0).map (fun a => a.name)) = some "a" := by
  decide

/-- Witness for the amended C5 on a concrete all-success state. -/
theorem refresh_quotas_spec_witness :
    ((refresh_quotas (fun _ => Except.ok quotaB) "t" appAB).quotas.get? 0).map
        (fun q => q.account_name) =
      ((appAB.accounts.get? 0).map (fun a => a.name)) ∧
    (refresh_quotas (fun _ => Except.ok quotaB) "t" appAB).status_message =
      "Last updated: t" := by
  have h := refresh_quotas_spec (fun _ => Except.ok quotaB) "t" appAB
  refine ⟨h.2.2.1 (by intro a _; rfl) 0, ?_⟩
  rw [h.2.1]
  decide

/-- All-success write oracle. -/
def effAllOk : Effects := ⟨fun _ => true, true, true, fun _ => true, true⟩

/-- A concrete environment over `fetchAB`. -/
def envAB : Env := ⟨effAllOk, fetchAB, .ok "cred", 0, "t"⟩

/-- `appAB` in `Renaming` mode with buffer "b" (a colliding target name). -/
def appRenColl : App :=
  ⟨⟨[accA, accB], [("a", "cred"), ("b", "cred")], []⟩,
   [accA, accB], [], 0, false, "", .Renaming "b"⟩

/-- Counterexample to C3 as stated: confirming a rename whose
`rename_account` call fails (here: the new name already exists) leaves
the controller in `Renaming`, not `Viewing`. -/
theorem renaming_failure_not_viewing :
    (step envAB appRenColl Key.enter).mode ≠ Mode.Viewing ∧
    (step envAB appRenColl Key.enter).mode = Mode.Renaming "b" := by
  constructor
  · decide
  · decide

/-- The nearby statement that holds for C3: when confirm is pressed in
`Renaming` with a non-empty trimmed buffer and the storage call fails,
the error is recorded as the status text and the controller stays in
`Renaming` (it does not return to `Viewing`), with the in-memory account
list and cached quotas unchanged. -/
theorem renaming_failure_keeps_state
    (env : Env) (app : App) (buffer : String) (account : Account)
    (st2 : StorageState) (e : String)
    (hmode : app.mode = Mode.Renaming buffer)
    (hacc : app.accounts.get? app.selected_index = some account)
    (hbuf : rustTrim buffer ≠ "")
    (hfail : rename_account env.eff env.now app.storage account.name
      (rustTrim buffer) = (st2, Except.error e)) :
    (step env app Key.enter).mode = Mode.Renaming buffer ∧
    (step env app Key.enter).status_message = s!"Rename failed: {e}" ∧
    (step env app Key.enter).accounts = app.accounts ∧
    (step env app Key.enter).quotas = app.quotas := by
  have hbuf' : (rustTrim buffer == "") = false := beq_eq_false_iff_ne.mpr hbuf
  simp only [step, hmode, stepRenaming, hacc, hbuf', hfail]
  exact ⟨rfl, rfl, rfl, rfl⟩

/-- Witness for the amended C3 on the concrete colliding rename. -/
theorem renaming_failure_keeps_state_witness :
    (step envAB appRenColl Key.enter).mode = Mode.Renaming "b" ∧
    (step envAB appRenColl Key.enter).status_message =
      "Rename failed: An account named b already exists" ∧
    (step envAB appRenColl Key.enter).accounts = appRenColl.accounts ∧
    (step envAB appRenColl Key.enter).quotas = appRenColl.quotas :=
  renaming_failure_keeps_state envAB appRenColl "b" accA
    appRenColl.storage "An account named b already exists"
    rfl (by decide) (by decide) (by decide)

/-- Empty dashboard state in `Viewing` mode. -/
def appEmptyViewing : App := ⟨⟨[], [], []⟩, [], [], 0, false, "", .Viewing⟩

/-- Counterexample to C2 as stated: from the reachable `CreatingAccount`
state (entered by pressing `n` in `Viewing`), pressing Enter — that
defined confirm input of that mode — moves to `CreatingAccountName`, not back
to `Viewing`. -/
theorem creating_account_enter_not_viewing :
    (step envAB (step envAB appEmptyViewing (Key.char 'n')) Key.enter).mode ≠
      Mode.Viewing ∧
    (step envAB (step envAB appEmptyViewing (Key.char 'n')) Key.enter).mode =
      Mode.CreatingAccountName "copilot" "GitHub Copilot" "copilot_0" :=
  ⟨by decide, by decide⟩

/-- The nearby statement that holds for C2: Esc returns to `Viewing` from
every non-`Viewing` mode; Enter returns to `Viewing` from `Deleting` and
from `CreatingAccountName`; Enter in `CreatingAccount` advances to
`CreatingAccountName`; and Enter in `Renaming` returns to `Viewing` when
the rename succeeds. -/
theorem modal_exit_paths (env : Env) (app : App) :
    (app.mode ≠ Mode.Viewing → (step env app Key.esc).mode = Mode.Viewing) ∧
    (app.mode = Mode.Deleting → (step env app Key.enter).mode = Mode.Viewing) ∧
    (∀ pid pname buf, app.mode = Mode.CreatingAccountName pid pname buf →
      (step env app Key.enter).mode = Mode.Viewing) ∧
    (∀ sp, app.mode = Mode.CreatingAccount sp →
      ∃ pid pname buf,
        (step env app Key.enter).mode = Mode.CreatingAccountName pid pname buf) ∧
    (∀ buf account st2, app.mode = Mode.Renaming buf →
      app.accounts.get? app.selected_index = some account →
      rustTrim buf ≠ "" →
      rename_account env.eff env.now app.storage account.name (rustTrim buf) =
        (st2, Except.ok ()) →
      (step env app Key.enter).mode = Mode.Viewing) := by
  refine ⟨?_, ?_, ?_, ?_, ?_⟩
  · intro h
    cases hm : app.mode with
    | Viewing => exact absurd hm h
    | Renaming buffer => simp [step, hm, stepRenaming]
    | CreatingAccount sp => simp [step, hm, stepCreatingAccount]
    | CreatingAccountName pid pname buf => simp [step, hm, stepCreatingName]
    | Deleting => simp [step, hm, stepDeleting]
  · intro hm
    simp only [step, hm, stepDeleting]
    split
    · split
      · rfl
      · rfl
    · rfl
  · intro pid pname buf hm
    simp only [step, hm, stepCreatingName]
    split
    · rfl
    · rfl
  · intro sp hm
    simp only [step, hm, stepCreatingAccount]
    exact ⟨_, _, _, rfl⟩
  · intro buf account st2 hm hacc hbuf hok
    have hbuf' : (rustTrim buf == "") = false := beq_eq_false_iff_ne.mpr hbuf
    simp only [step, hm, stepRenaming, hacc, hbuf', hok]
    rfl

/-- One-account dashboard state in `Deleting` mode. -/
def appDel : App := ⟨⟨[accA], [("a", "cred")], []⟩, [accA], [], 0, false, "", .Deleting⟩

/-- One-account dashboard state awaiting an account name. -/
def appCAN : App :=
  ⟨⟨[accA], [("a", "cred")], []⟩, [accA], [], 0, false, "",
   .CreatingAccountName "copilot" "GitHub Copilot" "x"⟩

/-- One-account dashboard state choosing a provider. -/
def appCA : App :=
  ⟨⟨[accA], [("a", "cred")], []⟩, [accA], [], 0, false, "", .CreatingAccount 0⟩

/-- One-account dashboard state renaming "a" to "b". -/
def appRenOk : App :=
  ⟨⟨[accA], [("a", "cred")], []⟩, [accA], [], 0, false, "", .Renaming "b"⟩

/-- The storage state after successfully renaming "a" to "b". -/
def renamedState : StorageState :=
  ⟨[⟨"b", "copilot", none, 0, 0⟩], [("b", "cred")], []⟩

/-- Witness for the amended C2 on concrete states in each mode. -/
theorem modal_exit_paths_witness :
    (step envAB appDel Key.esc).mode = Mode.Viewing ∧
    (step envAB appDel Key.enter).mode = Mode.Viewing ∧
    (step envAB appCAN Key.enter).mode = Mode.Viewing ∧
    (∃ pid pname buf,
      (step envAB appCA Key.enter).mode = Mode.CreatingAccountName pid pname buf) ∧
    (step envAB appRenOk Key.enter).mode = Mode.Viewing :=
  ⟨(modal_exit_paths envAB appDel).1 (by decide),
   (modal_exit_paths envAB appDel).2.1 rfl,
   (modal_exit_paths envAB appCAN).2.2.1 "copilot" "GitHub Copilot" "x" rfl,
   (modal_exit_paths envAB appCA).2.2.2.1 0 rfl,
   (modal_exit_paths envAB appRenOk).2.2.2.2 "b" accA renamedState rfl rfl
     (by decide) (by decide)⟩

lemma get?_concat_last {α : Type} (l : List α) (x : α) :
    (l ++ [x]).get? ((l ++ [x]).length - 1) = some x := by
  have h : (l ++ [x]).length - 1 = l.length := by simp
  rw [h, List.get?_eq_getElem?, List.getElem?_concat_length]

/-- C8: confirming in `CreatingAccountName` with an empty trimmed buffer
resolves the account name to `provider_id ++ "_" ++ unix timestamp at
confirm time`; on successful login the index is reloaded, the new
account (that name, that provider, created now) is the last entry, and it
becomes the selected account. -/
theorem create_account_default_name
    (env : Env) (app : App) (pid pname buf creds : String)
    (hmode : app.mode = Mode.CreatingAccountName pid pname buf)
    (hbuf : rustTrim buf = "")
    (hpid : pid = "copilot" ∨ pid = "openrouter")
    (hnet : env.loginNet = Except.ok creds)
    (hstore : env.eff.storeCredOk (defaultAccountName pid env.now) = true)
    (hidx : env.eff.saveIndexOk = true) :
    (step env app Key.enter).accounts =
      app.storage.accounts.filter
        (fun a => !(a.name == defaultAccountName pid env.now)) ++
      [⟨defaultAccountName pid env.now, pid, none, env.now, env.now⟩] ∧
    (step env app Key.enter).storage.accounts = (step env app Key.enter).accounts ∧
    (step env app Key.enter).accounts.getLast? =
      some ⟨defaultAccountName pid env.now, pid, none, env.now, env.now⟩ ∧
    (step env app Key.enter).selected_index =
      (step env app Key.enter).accounts.length - 1 ∧
    (step env app Key.enter).accounts.get? (step env app Key.enter).selected_index =
      some ⟨defaultAccountName pid env.now, pid, none, env.now, env.now⟩ := by
  have hbuf' : (rustTrim buf == "") = true := by rw [hbuf]; decide
  have hcond : (pid == "copilot" || pid == "openrouter") = true := by
    rcases hpid with h | h <;> simp [h]
  have hdisp : loginDispatch env app.storage pid (defaultAccountName pid env.now) =
      (⟨app.storage.accounts.filter
          (fun a => !(a.name == defaultAccountName pid env.now)) ++
        [⟨defaultAccountName pid env.now, pid, none, env.now, env.now⟩],
        (defaultAccountName pid env.now, creds) :: app.storage.vault,
        app.storage.history⟩, Except.ok ()) := by
    simp [loginDispatch, hcond, loginFlow, hnet, hstore, storeCredentialsState,
      save_account, hidx]
  have hne : (app.storage.accounts.filter
      (fun a => !(a.name == defaultAccountName pid env.now)) ++
      [(⟨defaultAccountName pid env.now, pid, none, env.now, env.now⟩ : Account)]).isEmpty
      = false := by
    simp [List.isEmpty_iff]
  simp only [step, hmode, stepCreatingName, hbuf', if_true, list_accounts,
    Bool.true_eq_false, ite_true, hdisp, hne, Bool.false_eq_true, ite_false]
  exact ⟨rfl, rfl, List.getLast?_concat _, rfl, get?_concat_last _ _⟩

/-- Empty-index environment and state for the account-creation witness. -/
def envCreate : Env := ⟨effAllOk, fetchAB, .ok "cred", 7, "t"⟩

/-- Zero-account state awaiting a name with an all-whitespace buffer. -/
def appCreate : App :=
  ⟨⟨[], [], []⟩, [], [], 0, false, "",
   .CreatingAccountName "copilot" "GitHub Copilot" " "⟩

/-- Witness for C8: zero accounts, empty (whitespace) name input,
timestamp 7: the created account is named "copilot_7", appears last and
is selected. -/
theorem create_account_default_name_witness :
    (step envCreate appCreate Key.enter).accounts =
      appCreate.storage.accounts.filter
        (fun a => !(a.name == defaultAccountName "copilot" 7)) ++
      [⟨defaultAccountName "copilot" 7, "copilot", none, 7, 7⟩] ∧
    (step envCreate appCreate Key.enter).storage.accounts =
      (step envCreate appCreate Key.enter).accounts ∧
    (step envCreate appCreate Key.enter).accounts.getLast? =
      some ⟨defaultAccountName "copilot" 7, "copilot", none, 7, 7⟩ ∧
    (step envCreate appCreate Key.enter).selected_index =
      (step envCreate appCreate Key.enter).accounts.length - 1 ∧
    (step envCreate appCreate Key.enter).accounts.get?
        (step envCreate appCreate Key.enter).selected_index =
      some ⟨defaultAccountName "copilot" 7, "copilot", none, 7, 7⟩ :=
  create_account_default_name envCreate appCreate "copilot" "GitHub Copilot"
    " " "cred" rfl (by decide) (Or.inl rfl) rfl rfl rfl

end Tokstat
